import Mathlib

/-!
# Verification of the bonding-curve monitor core

Shallow embedding of the subscription-driven monitoring and threshold-alerting
engine of the repository (src/main.py, src/bitquery_client.py, src/config.py).

Python dictionaries are modelled as association lists (insertion order
preserved, unique keys in every state the bot itself can build), Python sets
of strings as duplicate-free lists, Python floats as rationals (the arithmetic
performed by the code — integer subtraction, multiplication by 100, division
by a positive constant, clamping, comparisons against threshold constants —
is exact on the claimed properties), and Python ints as `Int`/`Nat`.

The Telegram transport, the GraphQL query construction and message formatting
are out of scope (per the specification they are external collaborators); the
Data Provider is modelled by a `FetchOutcome` fed to each poll cycle, and the
Notifier by a `sendOk` oracle telling which deliveries succeed.
-/

namespace PrebondBot

/-- Lookup in an association list: model of Python `d.get(k)` / `d[k]` /
`k in d`. -/
def lookupA {α β : Type} [DecidableEq α] (k : α) : List (α × β) → Option β
  | [] => none
  | (a, b) :: rest => if a = k then some b else lookupA k rest

/-- Assignment `d[k] = v` on a Python dict: replace the entry in place if the
key is present, otherwise append at the end (insertion order). -/
def setk {α β : Type} [DecidableEq α] (k : α) (v : β) : List (α × β) → List (α × β)
  | [] => [(k, v)]
  | (a, b) :: rest => if a = k then (k, v) :: rest else (a, b) :: setk k v rest

/-- Deletion `del d[k]` on a Python dict. Dict keys are unique, so removing
every entry with the key is the same operation; this formulation keeps the
lemmas free of uniqueness side conditions. No-op when the key is absent,
matching the guarded deletes in the source. -/
def delk {α β : Type} [DecidableEq α] (k : α) : List (α × β) → List (α × β) :=
  List.filter (fun p => decide (p.1 ≠ k))

/-- `s.add(x)` on a Python set modelled as a duplicate-free list. -/
def addElem {α : Type} [DecidableEq α] (x : α) (l : List α) : List α :=
  if x ∈ l then l else l ++ [x]

/-- Embedding of `BitqueryClient.calculate_bonding_curve_progress`
(src/bitquery_client.py lines 362-369):
`if balance <= 206900000: return 100.0`, else
`progress = 100 - (((balance - 206900000) * 100) / 793100000)` and
`return max(0.0, min(100.0, progress))`. -/
def calculate_bonding_curve_progress (balance : Int) : ℚ :=
  if balance ≤ 206900000 then 100
  else max 0 (min 100 (100 - ((balance : ℚ) - 206900000) * 100 / 793100000))

/-- Embedding of `BitqueryClient.calculate_market_cap`
(src/bitquery_client.py lines 371-374). -/
def calculate_market_cap (price_usd : ℚ) : ℚ := price_usd * 1000000000

/-- An alert key. In the source both alert checkers build the key as the
string `f"bonding_{threshold}"` (src/main.py lines 557 and 607); since Python
`str` is injective on the threshold values used, the key is modelled as the
threshold value tagged by this structure (one shared key space, exactly as in
the source where both checkers share the `bonding_` prefix). -/
structure AlertKey where
  threshold : ℚ
deriving DecidableEq, Repr

/-- `alert_key = f"bonding_{threshold}"`. -/
def mkAlertKey (t : ℚ) : AlertKey := ⟨t⟩

/-- The inner threshold loop shared verbatim by `check_alerts`
(src/main.py lines 606-610) and `check_bonding_alerts` (lines 556-560):
for each threshold in order, if `current value >= threshold` and the key is
not already in the per-(user, token) alert set, record the firing and add the
key to the set. Returns the list of fired thresholds and the updated set. -/
def fireThresholds (thresholds : List ℚ) (v : ℚ) (state : List AlertKey) :
    List ℚ × List AlertKey :=
  match thresholds with
  | [] => ([], state)
  | t :: rest =>
    if t ≤ v ∧ mkAlertKey t ∉ state then
      let out := fireThresholds rest v (addElem (mkAlertKey t) state)
      (t :: out.1, out.2)
    else
      fireThresholds rest v state

/-- `BONDING_CURVE_ALERT_THRESHOLDS = [50, 75, 90, 95, 99]`
(src/config.py line 24). -/
def BONDING_CURVE_ALERT_THRESHOLDS : List ℚ := [50, 75, 90, 95, 99]

/-- `bonding_thresholds = [85, 90, 95, 98, 99, 99.5]` hardcoded in
`check_bonding_alerts` (src/main.py line 554). The value `99.5` is written as
the reduced fraction `199/2` so that every comparison against it evaluates in
the kernel; `bonding_thresholds_eq_literal` below ties it to the literal. -/
def bonding_thresholds : List ℚ :=
  [85, 90, 95, 98, 99, Rat.mk' 199 2 (by decide) (by decide)]

theorem bonding_thresholds_eq_literal :
    bonding_thresholds = [85, 90, 95, 98, 99, 99.5] := by
  have h : (Rat.mk' 199 2 (by decide) (by decide) : ℚ) = 99.5 := by
    rw [Rat.mk'_eq_divInt, Rat.divInt_eq_div]; norm_num
  simp [bonding_thresholds, h]

/-- Status of an entry of `self.monitoring_tasks`: an asyncio task is either
still running, or has finished after the loop broke out on its own (a
cancelled task is deleted from the dict by `unmonitor_command` in the same
breath, so no cancelled entry survives). -/
inductive TaskStatus
  | running
  | done
deriving DecidableEq, Repr

/-- The numeric part of a `self.token_data[token]` record
(src/main.py lines 519-525); the timestamp and the raw provider payloads
carry no information used by any claim. -/
structure TokenMetrics where
  price_usd : ℚ
  bonding_progress : ℚ
deriving DecidableEq, Repr

/-- The four shared dictionaries of `BondingCurveMonitorBot.__init__`
(src/main.py lines 28-31). -/
@[ext]
structure BotState where
  user_subscriptions : List (Nat × List String)
  token_data : List (String × TokenMetrics)
  monitoring_tasks : List (String × TaskStatus)
  user_alerts : List (Nat × List (String × List AlertKey))
deriving DecidableEq, Repr

/-- The freshly-constructed bot: every dictionary empty. -/
def initState : BotState := ⟨[], [], [], []⟩

/-- `any(token_address in subs for subs in self.user_subscriptions.values())`
(src/main.py line 295). -/
def anyMem (t : String) (l : List (Nat × List String)) : Bool :=
  l.any (fun p => decide (t ∈ p.2))

/-- A token has an active poller: `self.monitoring_tasks` holds a task for it
and that task is still running. -/
def pollerActive (s : BotState) (t : String) : Bool :=
  decide (lookupA t s.monitoring_tasks = some TaskStatus.running)

/-- Some user's subscription set contains the token. -/
def hasSubscriber (s : BotState) (t : String) : Bool :=
  anyMem t s.user_subscriptions

/-- One result of a Data Provider round inside a poll cycle
(`get_token_price` and `get_bonding_curve_progress`, src/main.py
lines 499-500): an exception, or a pair of optional payloads — the price
`Trade.PriceInUSD` when a trade was found, and the pool base balance
`Pool.Base.PostAmount` when a pool was found. -/
inductive FetchOutcome
  | error
  | ok (token_data : Option ℚ) (bonding_data : Option Int)
deriving DecidableEq, Repr

/-- `price_usd = trade.get('PriceInUSD', 0)` with `price_usd = 0` when no
trade data (src/main.py lines 503-508). -/
def priceOfFetch : Option ℚ → ℚ
  | some p => p
  | none => 0

/-- `bonding_progress` stays `0` when no bonding data, else is computed from
the pool balance (src/main.py lines 504, 510-514). -/
def progressOfFetch : Option Int → ℚ
  | some bal => calculate_bonding_curve_progress bal
  | none => 0

/-- What a poll cycle does next: sleep `n` seconds and loop again, or break
out of the `while True` loop. -/
inductive CycleRes
  | sleepSecs (n : Nat)
  | stop
deriving DecidableEq, Repr

/-- Output of one alert-checking pass: the updated bot state, the deliveries
attempted (one per fired threshold per subscribed user, in loop order) and
the attempts whose `send_message` raised (caught and logged per recipient). -/
structure DispatchOut where
  state : BotState
  attempts : List (Nat × ℚ)
  failures : List (Nat × ℚ)
deriving Repr

/-- The user loop shared by `check_alerts` (src/main.py lines 599-626) and
`check_bonding_alerts` (lines 547-593): for every user in subscription order,
skip users not subscribed to the token, read the per-(user, token) alert set
(`self.user_alerts.get(user_id, {}).get(token_address, set())` — additions
are persisted exactly when both lookups hit, since only then does `.add`
mutate the stored set object), run the threshold loop, and attempt one
delivery per fired threshold; `sendOk` tells which deliveries succeed. -/
def checkAlertsUsers (thresholds : List ℚ) (token : String) (progress : ℚ)
    (sendOk : Nat → ℚ → Bool) :
    List (Nat × List String) → List (Nat × List (String × List AlertKey)) →
    List (Nat × List (String × List AlertKey)) × List (Nat × ℚ) × List (Nat × ℚ)
  | [], alerts => (alerts, [], [])
  | (uid, subs) :: rest, alerts =>
    if token ∈ subs then
      let stored := (lookupA uid alerts).bind (fun m => lookupA token m)
      let fired := fireThresholds thresholds progress (stored.getD [])
      let alerts' :=
        match stored with
        | some _ => setk uid (setk token fired.2 ((lookupA uid alerts).getD [])) alerts
        | none => alerts
      let attempts := fired.1.map (fun t => (uid, t))
      let out := checkAlertsUsers thresholds token progress sendOk rest alerts'
      (out.1, attempts ++ out.2.1,
        attempts.filter (fun p => !sendOk p.1 p.2) ++ out.2.2)
    else
      checkAlertsUsers thresholds token progress sendOk rest alerts

/-- `check_bonding_alerts` (src/main.py lines 543-593): the bonding-phase
checker with the hardcoded threshold list; `price_usd` only feeds message
text. -/
def check_bonding_alerts (token : String) (_price_usd : ℚ) (progress : ℚ)
    (sendOk : Nat → ℚ → Bool) (s : BotState) : DispatchOut :=
  let out := checkAlertsUsers bonding_thresholds token progress sendOk
    s.user_subscriptions s.user_alerts
  { state := { s with user_alerts := out.1 },
    attempts := out.2.1, failures := out.2.2 }

/-- `check_alerts` (src/main.py lines 595-626): the checker over the
configured `BONDING_CURVE_ALERT_THRESHOLDS`; no call site exists in the
repository. -/
def check_alerts (token : String) (_price_usd : ℚ) (progress : ℚ)
    (sendOk : Nat → ℚ → Bool) (s : BotState) : DispatchOut :=
  let out := checkAlertsUsers BONDING_CURVE_ALERT_THRESHOLDS token progress
    sendOk s.user_subscriptions s.user_alerts
  { state := { s with user_alerts := out.1 },
    attempts := out.2.1, failures := out.2.2 }

/-- Output of one iteration of the `while True` loop of
`monitor_bonding_token`. -/
structure CycleOut where
  state : BotState
  res : CycleRes
  attempts : List (Nat × ℚ)
  failures : List (Nat × ℚ)
deriving Repr

/-- One iteration of `monitor_bonding_token`'s loop (src/main.py
lines 496-541): an exception from the Data Provider is caught, logged and
followed by `await asyncio.sleep(30)`; with both payloads absent the body is
skipped and the loop sleeps 15 seconds; with data present, when the computed
progress is at least 80 the metrics snapshot is stored, alerts are checked
and the loop sleeps 15 seconds — otherwise the loop `break`s
("no longer in bonding phase"). -/
def pollerCycle (token : String) (outcome : FetchOutcome)
    (sendOk : Nat → ℚ → Bool) (s : BotState) : CycleOut :=
  match outcome with
  | .error => ⟨s, .sleepSecs 30, [], []⟩
  | .ok td bd =>
    if td = none ∧ bd = none then ⟨s, .sleepSecs 15, [], []⟩
    else
      let price_usd := priceOfFetch td
      let bonding_progress := progressOfFetch bd
      if 80 ≤ bonding_progress then
        let s1 := { s with
          token_data := setk token ⟨price_usd, bonding_progress⟩ s.token_data }
        let out := check_bonding_alerts token price_usd bonding_progress sendOk s1
        ⟨out.state, .sleepSecs 15, out.attempts, out.failures⟩
      else
        ⟨s, .stop, [], []⟩

/-- Replies sent back to the requesting user by the command handlers; only
the branch taken matters to the claims, not the message text. -/
inductive Reply
  | invalidAddress
  | monitoringStarted (t : String)
  | stoppedMonitoring (t : String)
  | notMonitoring (t : String)
  | statusRequested (t : String)
deriving DecidableEq, Repr

/-- Result of a command handler: the new bot state, the reply chosen, and the
token addresses handed to the Data Provider during the handler. -/
structure CmdResult where
  state : BotState
  reply : Reply
  providerCalls : List String
deriving DecidableEq, Repr

/-- The state mutation of `monitor_command` after validation (src/main.py
lines 215-230): create the user's subscription set and alert dict on first
contact, add the token to the set, create the pair's empty alert set if
absent, and create the monitoring task if the token has none. The dict
indexings `self.user_subscriptions[user_id]` / `self.user_alerts[user_id]`
are total here because the handler creates both entries together and no code
path removes one without the other. -/
def monitorUpdate (user_id : Nat) (token_address : String) (s : BotState) :
    BotState :=
  let s1 :=
    if lookupA user_id s.user_subscriptions = none then
      { s with user_subscriptions := setk user_id [] s.user_subscriptions,
               user_alerts := setk user_id [] s.user_alerts }
    else s
  let subs := (lookupA user_id s1.user_subscriptions).getD []
  let s2 := { s1 with
    user_subscriptions := setk user_id (addElem token_address subs) s1.user_subscriptions }
  let am := (lookupA user_id s2.user_alerts).getD []
  let s3 :=
    if lookupA token_address am = none then
      { s2 with user_alerts := setk user_id (setk token_address [] am) s2.user_alerts }
    else s2
  if lookupA token_address s3.monitoring_tasks = none then
    { s3 with monitoring_tasks := setk token_address TaskStatus.running s3.monitoring_tasks }
  else s3

/-- `monitor_command` (src/main.py lines 192-272): reject the address when
its length is below 32 or above 44 before touching any state; otherwise
register the subscription, start the poller if absent, and fetch the initial
status from the Data Provider for this address. -/
def monitor_command (user_id : Nat) (token_address : String) (s : BotState) :
    CmdResult :=
  if token_address.length < 32 || token_address.length > 44 then
    { state := s, reply := .invalidAddress, providerCalls := [] }
  else
    { state := monitorUpdate user_id token_address s,
      reply := .monitoringStarted token_address,
      providerCalls := [token_address] }

/-- `unmonitor_command` (src/main.py lines 274-308): if the caller is
subscribed, discard the token from their set, delete the pair's alert set,
and — when no user remains subscribed — cancel the monitoring task and delete
it from the dict; otherwise reply "not monitoring" and touch nothing. No
address-format validation is performed. -/
def unmonitor_command (user_id : Nat) (token_address : String) (s : BotState) :
    CmdResult :=
  if (lookupA user_id s.user_subscriptions).elim false (fun l => token_address ∈ l) then
    let subs := (lookupA user_id s.user_subscriptions).getD []
    let s1 := { s with
      user_subscriptions := setk user_id (subs.erase token_address) s.user_subscriptions }
    let am := (lookupA user_id s1.user_alerts).getD []
    let s2 :=
      if (lookupA token_address am).isSome then
        { s1 with user_alerts := setk user_id (delk token_address am) s1.user_alerts }
      else s1
    let s3 :=
      if anyMem token_address s2.user_subscriptions then s2
      else { s2 with monitoring_tasks := delk token_address s2.monitoring_tasks }
    { state := s3, reply := .stoppedMonitoring token_address, providerCalls := [] }
  else
    { state := s, reply := .notMonitoring token_address, providerCalls := [] }

/-- `status_command` (src/main.py lines 310-339): no address validation of
any kind; the address is handed to `get_token_price` and
`get_bonding_curve_progress` as given, and no bot state is touched. -/
def status_command (token_address : String) (s : BotState) : CmdResult :=
  { state := s, reply := .statusRequested token_address,
    providerCalls := [token_address] }

/-- An atomic step of the system: a `/monitor` with a length-valid address, an
`/unmonitor`, or one iteration of a token's polling loop with a given fetch
outcome. -/
inductive Op
  | subscribe (u : Nat) (t : String)
  | unsubscribe (u : Nat) (t : String)
  | pollerStep (t : String) (outcome : FetchOutcome)
deriving DecidableEq, Repr

/-- The registry operations (commands); poller iterations are the system's
own behaviour. -/
def Op.isRegistry : Op → Bool
  | .subscribe _ _ => true
  | .unsubscribe _ _ => true
  | .pollerStep _ _ => false

/-- Apply one step. A poller iteration only happens while the token's task is
running; when the cycle `break`s, the finished task stays behind in
`self.monitoring_tasks` (nothing deletes it), recorded as `TaskStatus.done`.
Delivery outcomes do not influence the state, so the step fixes an
all-successful Notifier. -/
def stepOp (op : Op) (s : BotState) : BotState :=
  match op with
  | .subscribe u t => (monitor_command u t s).state
  | .unsubscribe u t => (unmonitor_command u t s).state
  | .pollerStep t outcome =>
    if lookupA t s.monitoring_tasks = some TaskStatus.running then
      let out := pollerCycle t outcome (fun _ _ => true) s
      match out.res with
      | .stop => { out.state with
          monitoring_tasks := setk t TaskStatus.done out.state.monitoring_tasks }
      | .sleepSecs _ => out.state
    else s

/-- Run a sequence of steps from a state. -/
def runOps (ops : List Op) (s : BotState) : BotState :=
  ops.foldl (fun st op => stepOp op st) s

/-- `self.monitoring_tasks` holds no finished task left behind by a loop
`break`. -/
def NoStale (s : BotState) : Prop :=
  ∀ p ∈ s.monitoring_tasks, p.2 = TaskStatus.running

example : (fireThresholds BONDING_CURVE_ALERT_THRESHOLDS 96 []).1 = [50, 75, 90, 95] := by
  decide

example :
    (fireThresholds BONDING_CURVE_ALERT_THRESHOLDS 96
      (fireThresholds BONDING_CURVE_ALERT_THRESHOLDS 96 []).2).1 = [] := by decide

example : calculate_bonding_curve_progress 206900000 = 100 := by decide

example : (fireThresholds bonding_thresholds 100 []).1 = bonding_thresholds := by decide

/-! ## Association-list and set lemmas -/

theorem lookupA_setk_self {α β : Type} [DecidableEq α] (k : α) (v : β)
    (l : List (α × β)) : lookupA k (setk k v l) = some v := by
  induction l with
  | nil => simp [setk, lookupA]
  | cons p rest ih =>
    obtain ⟨a, b⟩ := p
    by_cases h : a = k
    · simp [setk, h, lookupA]
    · simp [setk, h, lookupA, ih]

theorem lookupA_setk_ne {α β : Type} [DecidableEq α] {k k' : α} (v : β)
    (l : List (α × β)) (h : k' ≠ k) :
    lookupA k' (setk k v l) = lookupA k' l := by
  induction l with
  | nil => simp [setk, lookupA, h.symm]
  | cons p rest ih =>
    obtain ⟨a, b⟩ := p
    by_cases ha : a = k
    · simp [setk, ha, lookupA, h.symm]
    · simp [setk, ha, lookupA, ih]

theorem delk_cons_eq {α β : Type} [DecidableEq α] {k a : α} {b : β}
    {rest : List (α × β)} (h : a = k) :
    delk k ((a, b) :: rest) = delk k rest := by
  simp [delk, List.filter_cons, h]

theorem delk_cons_ne {α β : Type} [DecidableEq α] {k a : α} {b : β}
    {rest : List (α × β)} (h : ¬a = k) :
    delk k ((a, b) :: rest) = (a, b) :: delk k rest := by
  simp [delk, List.filter_cons, h]

theorem lookupA_delk_self {α β : Type} [DecidableEq α] (k : α)
    (l : List (α × β)) : lookupA k (delk k l) = none := by
  induction l with
  | nil => simp [delk, lookupA]
  | cons p rest ih =>
    obtain ⟨a, b⟩ := p
    by_cases h : a = k
    · rw [delk_cons_eq h]; exact ih
    · rw [delk_cons_ne h]; simpa [lookupA, h] using ih

theorem lookupA_delk_ne {α β : Type} [DecidableEq α] {k k' : α}
    (l : List (α × β)) (h : k' ≠ k) :
    lookupA k' (delk k l) = lookupA k' l := by
  induction l with
  | nil => simp [delk, lookupA]
  | cons p rest ih =>
    obtain ⟨a, b⟩ := p
    by_cases ha : a = k
    · rw [delk_cons_eq ha, ih]
      have : ¬a = k' := by rw [ha]; exact h.symm
      simp [lookupA, this]
    · rw [delk_cons_ne ha]
      simp [lookupA, ih]

theorem setk_lookup_self {α β : Type} [DecidableEq α] {k : α} {v : β}
    {l : List (α × β)} (h : lookupA k l = some v) : setk k v l = l := by
  induction l with
  | nil => simp [lookupA] at h
  | cons p rest ih =>
    obtain ⟨a, b⟩ := p
    by_cases ha : a = k
    · subst ha
      simp only [lookupA, if_true, eq_self_iff_true, ite_true, Option.some.injEq] at h
      subst h
      simp [setk]
    · simp only [lookupA, if_neg ha] at h
      simp [setk, ha, ih h]

theorem mem_setk {α β : Type} [DecidableEq α] {k : α} {v : β}
    {l : List (α × β)} {p : α × β} (h : p ∈ setk k v l) :
    p ∈ l ∨ p = (k, v) := by
  induction l with
  | nil => simp [setk] at h; simp [h]
  | cons q rest ih =>
    obtain ⟨a, b⟩ := q
    by_cases ha : a = k
    · simp only [setk, if_pos ha, List.mem_cons] at h
      rcases h with h | h
      · right; exact h
      · left; simp [h]
    · simp only [setk, if_neg ha, List.mem_cons] at h
      rcases h with h | h
      · left; simp [h]
      · rcases ih h with h' | h'
        · left; simp [h']
        · right; exact h'

theorem mem_delk {α β : Type} [DecidableEq α] {k : α}
    {l : List (α × β)} {p : α × β} (h : p ∈ delk k l) : p ∈ l :=
  List.mem_of_mem_filter h

theorem mem_addElem_self {α : Type} [DecidableEq α] (x : α) (l : List α) :
    x ∈ addElem x l := by
  by_cases h : x ∈ l <;> simp [addElem, h]

theorem mem_addElem_ne {α : Type} [DecidableEq α] {x y : α} (l : List α)
    (h : y ≠ x) : y ∈ addElem x l ↔ y ∈ l := by
  by_cases hx : x ∈ l <;> simp [addElem, hx, h]

theorem addElem_of_mem {α : Type} [DecidableEq α] {x : α} {l : List α}
    (h : x ∈ l) : addElem x l = l := by simp [addElem, h]

theorem addElem_of_not_mem {α : Type} [DecidableEq α] {x : α} {l : List α}
    (h : x ∉ l) : addElem x l = l ++ [x] := by simp [addElem, h]

theorem anyMem_setk_of_mem {t : String} {v : List String} (u : Nat)
    (l : List (Nat × List String)) (h : t ∈ v) :
    anyMem t (setk u v l) = true := by
  induction l with
  | nil => simp [setk, anyMem, h]
  | cons p rest ih =>
    obtain ⟨a, b⟩ := p
    by_cases ha : a = u
    · simp [setk, ha, anyMem, h]
    · simp only [setk, if_neg ha, anyMem, List.any_cons] at ih ⊢
      simp [ih]

/-! ## Threshold-tracker lemmas -/

theorem fireThresholds_spec (v : ℚ) :
    ∀ (ts : List ℚ) (st : List AlertKey), ts.Nodup →
      (fireThresholds ts v st).1
          = ts.filter (fun t => decide (t ≤ v ∧ mkAlertKey t ∉ st)) ∧
      (fireThresholds ts v st).2
          = st ++ (ts.filter (fun t => decide (t ≤ v ∧ mkAlertKey t ∉ st))).map mkAlertKey := by
  intro ts
  induction ts with
  | nil => intro st _; simp [fireThresholds]
  | cons t rest ih =>
    intro st hnd
    obtain ⟨hth, hrest⟩ := List.nodup_cons.mp hnd
    by_cases h : t ≤ v ∧ mkAlertKey t ∉ st
    · have hadd : addElem (mkAlertKey t) st = st ++ [mkAlertKey t] :=
        addElem_of_not_mem h.2
      obtain ⟨ih1, ih2⟩ := ih (addElem (mkAlertKey t) st) hrest
      have hfc :
          rest.filter (fun x => decide (x ≤ v ∧ mkAlertKey x ∉ addElem (mkAlertKey t) st))
            = rest.filter (fun x => decide (x ≤ v ∧ mkAlertKey x ∉ st)) := by
        apply List.filter_congr
        intro a ha
        have hne : a ≠ t := fun hEq => hth (hEq ▸ ha)
        have hkey : mkAlertKey a ≠ mkAlertKey t := by
          simp only [mkAlertKey, ne_eq, AlertKey.mk.injEq]
          exact hne
        rw [decide_eq_decide]
        exact and_congr_right fun _ => not_congr (mem_addElem_ne st hkey)
      rw [hfc] at ih1 ih2
      constructor
      · simp only [fireThresholds, if_pos h]
        rw [ih1, List.filter_cons_of_pos (by simpa using h)]
      · simp only [fireThresholds, if_pos h]
        rw [ih2, hadd, List.filter_cons_of_pos (by simpa using h)]
        simp [List.append_assoc]
    · obtain ⟨ih1, ih2⟩ := ih st hrest
      constructor
      · simp only [fireThresholds, if_neg h]
        rw [ih1, List.filter_cons_of_neg (by simpa using h)]
      · simp only [fireThresholds, if_neg h]
        rw [ih2, List.filter_cons_of_neg (by simpa using h)]

/-- Every fired threshold comes from the configured list and was reached by
the current value (no Nodup assumption needed). -/
theorem fireThresholds_mem {v : ℚ} :
    ∀ {ts : List ℚ} {st : List AlertKey} {x : ℚ},
      x ∈ (fireThresholds ts v st).1 → x ∈ ts ∧ x ≤ v := by
  intro ts
  induction ts with
  | nil => intro st x hx; simp [fireThresholds] at hx
  | cons t rest ih =>
    intro st x hx
    by_cases h : t ≤ v ∧ mkAlertKey t ∉ st
    · simp only [fireThresholds, if_pos h, List.mem_cons] at hx
      rcases hx with hx | hx
      · subst hx; exact ⟨List.mem_cons_self _ _, h.1⟩
      · obtain ⟨h1, h2⟩ := ih hx
        exact ⟨List.mem_cons_of_mem _ h1, h2⟩
    · simp only [fireThresholds, if_neg h] at hx
      obtain ⟨h1, h2⟩ := ih hx
      exact ⟨List.mem_cons_of_mem _ h1, h2⟩

/-- Re-running the threshold loop on the state it just produced fires
nothing: every key was recorded (before any delivery attempt), so no
threshold is ever fired twice for the same (user, token) pair. -/
theorem fireThresholds_twice (ts : List ℚ) (v : ℚ) (st : List AlertKey)
    (hnd : ts.Nodup) :
    (fireThresholds ts v (fireThresholds ts v st).2).1 = [] := by
  obtain ⟨h1, h2⟩ := fireThresholds_spec v ts st hnd
  obtain ⟨h1', _⟩ := fireThresholds_spec v ts (fireThresholds ts v st).2 hnd
  rw [h1', h2]
  rw [List.filter_eq_nil_iff]
  intro a ha
  simp only [decide_eq_true_eq, not_and, not_not]
  intro hv
  by_cases hm : mkAlertKey a ∈ st
  · exact List.mem_append_left _ hm
  · refine List.mem_append_right _ ?_
    refine List.mem_map.mpr ⟨a, ?_, rfl⟩
    exact List.mem_filter.mpr ⟨ha, by simp [hv, hm]⟩

theorem anyMem_setk_congr {t : String} {v : List String} {u : Nat}
    {l : List (Nat × List String)}
    (h : (t ∈ v) ↔ (t ∈ (lookupA u l).getD [])) :
    anyMem t (setk u v l) = anyMem t l := by
  induction l with
  | nil =>
    simp only [lookupA, Option.getD_none, List.not_mem_nil, iff_false] at h
    simp [setk, anyMem, h]
  | cons p rest ih =>
    obtain ⟨a, b⟩ := p
    by_cases ha : a = u
    · subst ha
      simp only [lookupA, if_pos rfl, Option.getD_some] at h
      simp [setk, anyMem, h]
    · simp only [lookupA, if_neg ha, Option.getD] at h ih
      simp only [setk, if_neg ha, anyMem, List.any_cons] at ih ⊢
      simp [ih h]

/-! ## Characterization of the command handlers and the poll cycle -/

theorem lookupA_mem {α β : Type} [DecidableEq α] {k : α} {v : β} :
    ∀ {l : List (α × β)}, lookupA k l = some v → (k, v) ∈ l := by
  intro l
  induction l with
  | nil => intro h; simp [lookupA] at h
  | cons p rest ih =>
    obtain ⟨a, b⟩ := p
    intro h
    by_cases ha : a = k
    · subst ha
      simp only [lookupA, if_true, eq_self_iff_true, ite_true, Option.some.injEq] at h
      subst h
      exact List.mem_cons_self _ _
    · simp only [lookupA, if_neg ha] at h
      exact List.mem_cons_of_mem _ (ih h)

theorem anyMem_of_lookup {u : Nat} {l : List String} {t : String}
    {L : List (Nat × List String)} (h : lookupA u L = some l) (ht : t ∈ l) :
    anyMem t L = true := by
  have := lookupA_mem h
  simp only [anyMem, List.any_eq_true]
  exact ⟨(u, l), this, by simpa using ht⟩

theorem monitorUpdate_token_data (u : Nat) (tk : String) (s : BotState) :
    (monitorUpdate u tk s).token_data = s.token_data := by
  simp only [monitorUpdate]
  split_ifs <;> rfl

theorem monitorUpdate_tasks (u : Nat) (tk : String) (s : BotState) :
    (monitorUpdate u tk s).monitoring_tasks
      = if lookupA tk s.monitoring_tasks = none
        then setk tk TaskStatus.running s.monitoring_tasks
        else s.monitoring_tasks := by
  simp only [monitorUpdate]
  split_ifs <;> rfl

theorem monitorUpdate_subs (u : Nat) (tk : String) (s : BotState) :
    (monitorUpdate u tk s).user_subscriptions
      = setk u (addElem tk ((lookupA u s.user_subscriptions).getD []))
          (if lookupA u s.user_subscriptions = none
           then setk u [] s.user_subscriptions
           else s.user_subscriptions) := by
  simp only [monitorUpdate]
  split_ifs with h1 <;>
    simp [lookupA_setk_self, h1]

theorem monitorUpdate_lookup_subs (u : Nat) (tk : String) (s : BotState) :
    lookupA u (monitorUpdate u tk s).user_subscriptions
      = some (addElem tk ((lookupA u s.user_subscriptions).getD [])) := by
  rw [monitorUpdate_subs, lookupA_setk_self]

theorem monitorUpdate_anyMem_self (u : Nat) (tk : String) (s : BotState) :
    anyMem tk (monitorUpdate u tk s).user_subscriptions = true := by
  rw [monitorUpdate_subs]
  exact anyMem_setk_of_mem u _ (mem_addElem_self _ _)

theorem monitorUpdate_anyMem_other (u : Nat) (tk : String) (s : BotState)
    {t : String} (h : t ≠ tk) :
    anyMem t (monitorUpdate u tk s).user_subscriptions
      = anyMem t s.user_subscriptions := by
  rw [monitorUpdate_subs]
  by_cases h1 : lookupA u s.user_subscriptions = none
  · simp only [if_pos h1]
    rw [anyMem_setk_congr, anyMem_setk_congr]
    · simp [h1]
    · rw [lookupA_setk_self]
      simp only [Option.getD_some]
      exact mem_addElem_ne _ h |>.trans (by simp [h1])
  · simp only [if_neg h1]
    rw [anyMem_setk_congr]
    exact mem_addElem_ne _ h

theorem monitorUpdate_alerts_present (u : Nat) (tk : String) (s : BotState) :
    (lookupA tk ((lookupA u (monitorUpdate u tk s).user_alerts).getD [])).isSome := by
  simp only [monitorUpdate]
  split_ifs with h1 h2 h3 <;>
    simp_all [lookupA_setk_self, Option.isSome_iff_ne_none, lookupA]

theorem monitorUpdate_alerts_fresh (u : Nat) (tk : String) (s : BotState)
    (h : lookupA tk ((lookupA u s.user_alerts).getD []) = none) :
    lookupA tk ((lookupA u (monitorUpdate u tk s).user_alerts).getD [])
      = some [] := by
  simp only [monitorUpdate]
  split_ifs with h1 h2 h3 <;>
    simp_all [lookupA_setk_self, lookupA]

theorem monitorUpdate_alerts_saturated {u : Nat} {tk : String} {s : BotState}
    (hsubne : lookupA u s.user_subscriptions ≠ none)
    (hal : lookupA tk ((lookupA u s.user_alerts).getD []) ≠ none) :
    (monitorUpdate u tk s).user_alerts = s.user_alerts := by
  simp only [monitorUpdate]
  split_ifs <;> simp_all

/-- When the caller is already fully registered — subscribed to the token,
with the pair's alert set present and a task entry for the token —
`monitorUpdate` changes nothing. -/
theorem monitorUpdate_saturated {u : Nat} {tk : String} {s : BotState}
    {l : List String}
    (hsub : lookupA u s.user_subscriptions = some l) (htk : tk ∈ l)
    (hal : lookupA tk ((lookupA u s.user_alerts).getD []) ≠ none)
    (htask : lookupA tk s.monitoring_tasks ≠ none) :
    monitorUpdate u tk s = s := by
  have hsubne : lookupA u s.user_subscriptions ≠ none := by simp [hsub]
  ext : 1
  · rw [monitorUpdate_subs, if_neg hsubne, hsub]
    simp only [Option.getD_some]
    rw [addElem_of_mem htk, setk_lookup_self hsub]
  · exact monitorUpdate_token_data u tk s
  · rw [monitorUpdate_tasks, if_neg htask]
  · exact monitorUpdate_alerts_saturated hsubne hal

/-- `monitorUpdate` is idempotent: the second call finds the subscription,
the alert set and the task already present and changes nothing. -/
theorem monitorUpdate_idem (u : Nat) (tk : String) (s : BotState) :
    monitorUpdate u tk (monitorUpdate u tk s) = monitorUpdate u tk s := by
  apply monitorUpdate_saturated (monitorUpdate_lookup_subs u tk s)
    (mem_addElem_self _ _)
  · rw [← Option.isSome_iff_ne_none]
    exact monitorUpdate_alerts_present u tk s
  · rw [monitorUpdate_tasks]
    split_ifs with h1
    · rw [lookupA_setk_self]; simp
    · exact h1

/-! ### `unmonitor_command` -/

/-- The guard of `unmonitor_command` in terms of a named subscription set. -/
theorem unmonitor_not_subscribed {u : Nat} {tk : String} {s : BotState}
    (h : ∀ l, lookupA u s.user_subscriptions = some l → tk ∉ l) :
    unmonitor_command u tk s
      = ⟨s, Reply.notMonitoring tk, []⟩ := by
  rw [unmonitor_command, if_neg]
  cases hl : lookupA u s.user_subscriptions with
  | none => simp
  | some l => simpa using h l hl

theorem unmonitor_token_data (u : Nat) (tk : String) (s : BotState) :
    (unmonitor_command u tk s).state.token_data = s.token_data := by
  simp only [unmonitor_command]
  split_ifs <;> rfl

theorem unmonitor_guard {u : Nat} {tk : String} {s : BotState} {l : List String}
    (hsub : lookupA u s.user_subscriptions = some l) (htk : tk ∈ l) :
    ((lookupA u s.user_subscriptions).elim false fun l' => decide (tk ∈ l'))
      = true := by
  simp [hsub, htk]

theorem unmonitor_subs {u : Nat} {tk : String} {s : BotState} {l : List String}
    (hsub : lookupA u s.user_subscriptions = some l) (htk : tk ∈ l) :
    (unmonitor_command u tk s).state.user_subscriptions
      = setk u (l.erase tk) s.user_subscriptions := by
  simp only [unmonitor_command, hsub, Option.getD_some]
  split_ifs <;> simp_all

theorem unmonitor_tasks {u : Nat} {tk : String} {s : BotState} {l : List String}
    (hsub : lookupA u s.user_subscriptions = some l) (htk : tk ∈ l) :
    (unmonitor_command u tk s).state.monitoring_tasks
      = if anyMem tk (setk u (l.erase tk) s.user_subscriptions)
        then s.monitoring_tasks
        else delk tk s.monitoring_tasks := by
  simp only [unmonitor_command, hsub, Option.getD_some]
  split_ifs <;> simp_all

theorem unmonitor_alerts {u : Nat} {tk : String} {s : BotState} {l : List String}
    (hsub : lookupA u s.user_subscriptions = some l) (htk : tk ∈ l) :
    lookupA tk ((lookupA u (unmonitor_command u tk s).state.user_alerts).getD [])
      = none := by
  simp only [unmonitor_command, hsub, Option.getD_some]
  split_ifs with h1 h2 <;>
    simp_all [lookupA_setk_self, lookupA_delk_self, Option.isSome_iff_ne_none]

/-! ### The poll cycle -/

theorem pollerCycle_subs (tk : String) (o : FetchOutcome)
    (k : Nat → ℚ → Bool) (s : BotState) :
    (pollerCycle tk o k s).state.user_subscriptions = s.user_subscriptions := by
  cases o with
  | error => rfl
  | ok td bd =>
    simp only [pollerCycle, check_bonding_alerts]
    split_ifs <;> rfl

theorem pollerCycle_tasks (tk : String) (o : FetchOutcome)
    (k : Nat → ℚ → Bool) (s : BotState) :
    (pollerCycle tk o k s).state.monitoring_tasks = s.monitoring_tasks := by
  cases o with
  | error => rfl
  | ok td bd =>
    simp only [pollerCycle, check_bonding_alerts]
    split_ifs <;> rfl

/-! ## The registry invariant -/

/-- The specification's §3 invariant: a poller is active for a token exactly
when some user's subscription set contains it. -/
def IffInv (s : BotState) : Prop :=
  ∀ t, pollerActive s t = hasSubscriber s t

/-- The one direction that survives the poller's own behaviour: an active
poller always has at least one subscriber. -/
def ActImpSub (s : BotState) : Prop :=
  ∀ t, pollerActive s t = true → hasSubscriber s t = true

theorem initState_NoStale : NoStale initState := by
  intro p hp
  simp [initState] at hp

theorem initState_IffInv : IffInv initState := fun _ => rfl

theorem stepOp_subscribe_inv (u : Nat) (tk : String) (s : BotState)
    (hNS : NoStale s) (hI : IffInv s) :
    NoStale (stepOp (.subscribe u tk) s) ∧ IffInv (stepOp (.subscribe u tk) s) := by
  simp only [stepOp, monitor_command]
  split_ifs with hv
  · exact ⟨hNS, hI⟩
  · constructor
    · intro p hp
      rw [monitorUpdate_tasks] at hp
      split_ifs at hp with h1
      · rcases mem_setk hp with h | h
        · exact hNS p h
        · rw [h]
      · exact hNS p hp
    · intro t
      by_cases ht : t = tk
      · subst ht
        have hact : pollerActive (monitorUpdate u t s) t = true := by
          unfold pollerActive
          rw [monitorUpdate_tasks]
          split_ifs with h1
          · simp [lookupA_setk_self]
          · cases hl : lookupA t s.monitoring_tasks with
            | none => exact absurd hl h1
            | some st =>
              have hrun := hNS _ (lookupA_mem hl)
              simp only at hrun
              simp [hl, hrun]
        rw [hact]
        exact (monitorUpdate_anyMem_self u t s).symm
      · have hbefore := hI t
        unfold pollerActive hasSubscriber at hbefore ⊢
        rw [monitorUpdate_anyMem_other u tk s ht, monitorUpdate_tasks]
        split_ifs with h1
        · rw [lookupA_setk_ne _ _ ht]
          exact hbefore
        · exact hbefore

theorem stepOp_unsubscribe_inv (u : Nat) (tk : String) (s : BotState)
    (hNS : NoStale s) (hI : IffInv s) :
    NoStale (stepOp (.unsubscribe u tk) s) ∧ IffInv (stepOp (.unsubscribe u tk) s) := by
  simp only [stepOp]
  by_cases hg : ∃ l, lookupA u s.user_subscriptions = some l ∧ tk ∈ l
  case neg =>
    rw [unmonitor_not_subscribed (fun l hl htk => hg ⟨l, hl, htk⟩)]
    exact ⟨hNS, hI⟩
  case pos =>
    obtain ⟨l, hsub, htk⟩ := hg
    constructor
    · intro p hp
      rw [unmonitor_tasks hsub htk] at hp
      split_ifs at hp
      · exact hNS p hp
      · exact hNS p (mem_delk hp)
    · intro t
      unfold pollerActive hasSubscriber
      rw [unmonitor_subs hsub htk, unmonitor_tasks hsub htk]
      by_cases ht : t = tk
      · subst ht
        split_ifs with h1
        · rw [h1]
          have hbefore := hI t
          unfold pollerActive hasSubscriber at hbefore
          rw [hbefore]
          exact anyMem_of_lookup hsub htk
        · rw [lookupA_delk_self]
          simp only [Bool.not_eq_true] at h1
          rw [h1]
          simp
      · have hsubs_eq : anyMem t (setk u (l.erase tk) s.user_subscriptions)
            = anyMem t s.user_subscriptions := by
          apply anyMem_setk_congr
          rw [hsub]
          simp only [Option.getD_some]
          exact List.mem_erase_of_ne ht
        have hbefore := hI t
        unfold pollerActive hasSubscriber at hbefore
        split_ifs with h1
        · rw [hsubs_eq]; exact hbefore
        · rw [lookupA_delk_ne _ ht, hsubs_eq]; exact hbefore

theorem stepOp_preserves_J (op : Op) (s : BotState) (hJ : ActImpSub s) :
    ActImpSub (stepOp op s) := by
  cases op with
  | subscribe u tk =>
    simp only [stepOp, monitor_command]
    split_ifs with hv
    · exact hJ
    · intro t hact
      by_cases ht : t = tk
      · subst ht
        exact monitorUpdate_anyMem_self u t s
      · unfold hasSubscriber
        rw [monitorUpdate_anyMem_other u tk s ht]
        unfold pollerActive at hact
        rw [monitorUpdate_tasks] at hact
        apply hJ t
        unfold pollerActive
        split_ifs at hact with h1
        · rwa [lookupA_setk_ne _ _ ht] at hact
        · exact hact
  | unsubscribe u tk =>
    simp only [stepOp]
    by_cases hg : ∃ l, lookupA u s.user_subscriptions = some l ∧ tk ∈ l
    case neg =>
      rw [unmonitor_not_subscribed (fun l hl htk => hg ⟨l, hl, htk⟩)]
      exact hJ
    case pos =>
      obtain ⟨l, hsub, htk⟩ := hg
      intro t hact
      unfold pollerActive at hact
      unfold hasSubscriber
      rw [unmonitor_tasks hsub htk] at hact
      rw [unmonitor_subs hsub htk]
      by_cases ht : t = tk
      · subst ht
        split_ifs at hact with h1
        · exact h1
        · rw [lookupA_delk_self] at hact
          simp at hact
      · have hsubs_eq : anyMem t (setk u (l.erase tk) s.user_subscriptions)
            = anyMem t s.user_subscriptions := by
          apply anyMem_setk_congr
          rw [hsub]
          simp only [Option.getD_some]
          exact List.mem_erase_of_ne ht
        rw [hsubs_eq]
        split_ifs at hact with h1
        · exact hJ t hact
        · rw [lookupA_delk_ne _ ht] at hact
          exact hJ t hact
  | pollerStep tk o =>
    simp only [stepOp]
    split_ifs with hg
    · cases hres : (pollerCycle tk o (fun _ _ => true) s).res with
      | stop =>
        simp only [hres]
        intro t hact
        unfold pollerActive at hact
        unfold hasSubscriber
        simp only [pollerCycle_subs]
        by_cases ht : t = tk
        · subst ht
          rw [lookupA_setk_self] at hact
          simp at hact
        · rw [lookupA_setk_ne _ _ ht, pollerCycle_tasks] at hact
          exact hJ t hact
      | sleepSecs n =>
        simp only [hres]
        intro t hact
        unfold pollerActive at hact
        unfold hasSubscriber
        rw [pollerCycle_tasks] at hact
        rw [pollerCycle_subs]
        exact hJ t hact
    · exact hJ

theorem runOps_cons (op : Op) (ops : List Op) (s : BotState) :
    runOps (op :: ops) s = runOps ops (stepOp op s) := rfl

theorem runOps_preserves (P : BotState → Prop) (Q : Op → Prop)
    (hstep : ∀ s op, Q op → P s → P (stepOp op s)) :
    ∀ (ops : List Op) (s : BotState), (∀ op ∈ ops, Q op) → P s → P (runOps ops s) := by
  intro ops
  induction ops with
  | nil => intro s _ h; exact h
  | cons op rest ih =>
    intro s hq h
    rw [runOps_cons]
    exact ih _ (fun o ho => hq o (List.mem_cons_of_mem _ ho))
      (hstep s op (hq op (List.mem_cons_self _ _)) h)

theorem runOps_registry_inv (ops : List Op)
    (hreg : ∀ op ∈ ops, op.isRegistry = true) :
    NoStale (runOps ops initState) ∧ IffInv (runOps ops initState) := by
  refine runOps_preserves (fun st => NoStale st ∧ IffInv st)
    (fun op => op.isRegistry = true) ?_ ops initState hreg
    ⟨initState_NoStale, initState_IffInv⟩
  intro s op hq h
  cases op with
  | subscribe u tk => exact stepOp_subscribe_inv u tk s h.1 h.2
  | unsubscribe u tk => exact stepOp_unsubscribe_inv u tk s h.1 h.2
  | pollerStep t o => simp [Op.isRegistry] at hq

theorem runOps_J (ops : List Op) : ActImpSub (runOps ops initState) := by
  refine runOps_preserves ActImpSub (fun _ => True) ?_ ops initState
    (fun _ _ => trivial) ?_
  · intro s op _ h
    exact stepOp_preserves_J op s h
  · intro t h
    simp [pollerActive, initState, lookupA] at h

/-! ## Concrete fixtures -/

/-- A syntactically valid (32-character) token address used in witnesses and
counterexamples. -/
def tokA : String := "AAAAAAAAAAAAAAAAAAAAAAAAAAAAAAAA"

/-- A reachable state: user 1 subscribed to `tokA`, one metrics snapshot
stored, the poller running, and one alert already fired. -/
def exState : BotState :=
  { user_subscriptions := [(1, [tokA])],
    token_data := [(tokA, ⟨1, 90⟩)],
    monitoring_tasks := [(tokA, TaskStatus.running)],
    user_alerts := [(1, [(tokA, [mkAlertKey 85])])] }

/-! ## Claim C1 -/

/-- C1, counterexample to the claim as stated: after user 1 subscribes to a
token, one poll cycle whose fetch returns price data but no bonding-pool data
computes progress 0, takes the `break` branch of `monitor_bonding_token`
(src/main.py lines 529-532), and leaves the token with a subscriber but no
active poller — the poller's own behaviour violates the iff invariant. -/
theorem claim_C1_cex :
    hasSubscriber (runOps [Op.subscribe 1 tokA,
        Op.pollerStep tokA (FetchOutcome.ok (some 1) none)] initState) tokA = true ∧
    pollerActive (runOps [Op.subscribe 1 tokA,
        Op.pollerStep tokA (FetchOutcome.ok (some 1) none)] initState) tokA = false := by
  decide

/-- C1 (amended): after any interleaving of subscribe/unsubscribe commands
alone, a poller task is running for a token exactly when some user's
subscription set contains it; and under all behaviours — poller self-stops
included — an active poller still implies at least one subscriber. The
converse direction is broken only by the poller's own `break` when computed
progress drops below 80 (see the counterexample). -/
theorem claim_C1 :
    (∀ ops : List Op, (∀ op ∈ ops, op.isRegistry = true) →
       ∀ t, pollerActive (runOps ops initState) t
             = hasSubscriber (runOps ops initState) t) ∧
    (∀ ops : List Op, ∀ t,
       pollerActive (runOps ops initState) t = true →
         hasSubscriber (runOps ops initState) t = true) := by
  constructor
  · intro ops hreg t
    exact (runOps_registry_inv ops hreg).2 t
  · intro ops t
    exact runOps_J ops t

theorem claim_C1_witness :
    pollerActive (runOps [Op.subscribe 1 tokA] initState) tokA
      = hasSubscriber (runOps [Op.subscribe 1 tokA] initState) tokA ∧
    hasSubscriber (runOps [Op.subscribe 1 tokA] initState) tokA = true :=
  ⟨claim_C1.1 [Op.subscribe 1 tokA]
      (by intro op hop; simp only [List.mem_singleton] at hop; subst hop; rfl) tokA,
    claim_C1.2 [Op.subscribe 1 tokA] tokA (by decide)⟩

/-! ## Claim C2 -/

/-- C2, counterexample to the claim as stated: a cycle whose fetch succeeds
with price data but no bonding-pool data leaves `bonding_progress = 0 < 80`,
and the loop `break`s — a fetch outcome that is neither an error nor an
explicit stop terminates the loop (src/main.py lines 529-532). -/
theorem claim_C2_cex :
    (pollerCycle tokA (FetchOutcome.ok (some 1) none)
        (fun _ _ => true) initState).res = CycleRes.stop := by decide

/-- C2 (amended): a Data Provider error is caught and followed by a 30-second
backoff (longer than the steady 15-second interval) with the state untouched;
a cycle in which both fetches return nothing sleeps the steady interval with
the state untouched; and the loop's only non-cancellation exit is a cycle
whose fetched data yields computed bonding progress below 80. -/
theorem claim_C2 :
    (∀ tk k s, pollerCycle tk FetchOutcome.error k s
        = ⟨s, CycleRes.sleepSecs 30, [], []⟩) ∧
    (∀ tk k s, pollerCycle tk (FetchOutcome.ok none none) k s
        = ⟨s, CycleRes.sleepSecs 15, [], []⟩) ∧
    (∀ tk o k s, (pollerCycle tk o k s).res = CycleRes.stop ↔
       (∃ td bd, o = FetchOutcome.ok td bd ∧ ¬(td = none ∧ bd = none) ∧
         progressOfFetch bd < 80)) := by
  refine ⟨fun tk k s => rfl, fun tk k s => by simp [pollerCycle], ?_⟩
  intro tk o k s
  cases o with
  | error => simp [pollerCycle]
  | ok td bd =>
    by_cases hb : td = none ∧ bd = none
    · simp [pollerCycle, hb]
    · by_cases hp : 80 ≤ progressOfFetch bd
      · simp [pollerCycle, hb, hp, not_lt.mpr hp]
      · simp only [pollerCycle, if_neg hb, if_neg hp]
        constructor
        · intro _
          refine ⟨td, bd, rfl, hb, lt_of_not_ge hp⟩
        · intro _
          trivial

theorem claim_C2_witness :
    pollerCycle tokA FetchOutcome.error (fun _ _ => true) initState
      = ⟨initState, CycleRes.sleepSecs 30, [], []⟩ :=
  claim_C2.1 tokA (fun _ _ => true) initState

/-! ## Claim C4 -/

theorem cbcp_bounds (b : Int) :
    0 ≤ calculate_bonding_curve_progress b ∧
      calculate_bonding_curve_progress b ≤ 100 := by
  unfold calculate_bonding_curve_progress
  split_ifs
  · norm_num
  · exact ⟨le_max_left _ _,
      max_le (by norm_num) (min_le_left _ _)⟩

/-- C4: the bonding-curve progress function is total, monotonically
non-increasing in the balance, equal to exactly 100 at or below the reserved
amount, given by the clamped formula above it, and always within [0, 100]. -/
theorem claim_C4 :
    (∀ b1 b2 : Int, b1 ≤ b2 →
       calculate_bonding_curve_progress b2 ≤ calculate_bonding_curve_progress b1) ∧
    (∀ b : Int, b ≤ 206900000 → calculate_bonding_curve_progress b = 100) ∧
    (∀ b : Int, 206900000 < b →
       calculate_bonding_curve_progress b
         = max 0 (min 100 (100 - ((b : ℚ) - 206900000) * 100 / 793100000))) ∧
    (∀ b : Int, 0 ≤ calculate_bonding_curve_progress b ∧
       calculate_bonding_curve_progress b ≤ 100) := by
  have heq : ∀ b : Int, b ≤ 206900000 → calculate_bonding_curve_progress b = 100 :=
    fun b hb => by unfold calculate_bonding_curve_progress; rw [if_pos hb]
  have helse : ∀ b : Int, 206900000 < b →
      calculate_bonding_curve_progress b
        = max 0 (min 100 (100 - ((b : ℚ) - 206900000) * 100 / 793100000)) :=
    fun b hb => by
      unfold calculate_bonding_curve_progress
      rw [if_neg (not_le.mpr hb)]
  refine ⟨?_, heq, helse, cbcp_bounds⟩
  intro b1 b2 h
  by_cases hb2 : b2 ≤ 206900000
  · rw [heq b1 (le_trans h hb2), heq b2 hb2]
  · by_cases hb1 : b1 ≤ 206900000
    · rw [heq b1 hb1]
      exact (cbcp_bounds b2).2
    · rw [helse b1 (not_le.mp hb1), helse b2 (not_le.mp hb2)]
      have hc : ((b1 : ℚ) - 206900000) * 100 ≤ ((b2 : ℚ) - 206900000) * 100 := by
        have : (b1 : ℚ) ≤ (b2 : ℚ) := Int.cast_le.mpr h
        nlinarith
      have hd : ((b1 : ℚ) - 206900000) * 100 / 793100000
          ≤ ((b2 : ℚ) - 206900000) * 100 / 793100000 :=
        div_le_div_of_nonneg_right hc (by norm_num) |>.trans_eq rfl
      exact max_le_max (le_refl 0)
        (min_le_min (le_refl 100) (by linarith))

theorem claim_C4_witness :
    calculate_bonding_curve_progress 300000000
        ≤ calculate_bonding_curve_progress 100 ∧
    calculate_bonding_curve_progress 100 = 100 ∧
    calculate_bonding_curve_progress 206900001
      = max 0 (min 100 (100 - ((206900001 : ℚ) - 206900000) * 100 / 793100000)) :=
  ⟨claim_C4.1 100 300000000 (by decide), claim_C4.2.1 100 (by decide),
    claim_C4.2.2.1 206900001 (by decide)⟩

/-! ## Claim C5 -/

/-- C5, counterexample to the claim as stated: `status_command` performs no
address validation and hands a 3-character address straight to the Data
Provider (src/main.py lines 310-339). -/
theorem claim_C5_cex :
    (status_command "abc" initState).providerCalls = ["abc"] ∧
    "abc".length < 32 := by decide

/-- C5 (amended): only `monitor_command` validates the address length and
rejects lengths outside [32, 44] synchronously, with no state change, no
provider call and no poller start; `status_command` passes any address,
however malformed, to the Data Provider; `unmonitor_command` performs no
format validation and rejects an address the caller is not subscribed to
with a "not monitoring" reply. -/
theorem claim_C5 :
    (∀ u tk s, (tk.length < 32 ∨ 44 < tk.length) →
       monitor_command u tk s = ⟨s, Reply.invalidAddress, []⟩) ∧
    (∀ tk s, status_command tk s = ⟨s, Reply.statusRequested tk, [tk]⟩) ∧
    (∀ u tk s, (∀ l, lookupA u s.user_subscriptions = some l → tk ∉ l) →
       unmonitor_command u tk s = ⟨s, Reply.notMonitoring tk, []⟩) := by
  refine ⟨?_, fun tk s => rfl, fun u tk s h => unmonitor_not_subscribed h⟩
  intro u tk s h
  rcases h with h | h <;> simp [monitor_command, h]

theorem claim_C5_witness :
    monitor_command 1 "abc" initState = ⟨initState, Reply.invalidAddress, []⟩ ∧
    status_command tokA initState
      = ⟨initState, Reply.statusRequested tokA, [tokA]⟩ ∧
    unmonitor_command 2 tokA initState
      = ⟨initState, Reply.notMonitoring tokA, []⟩ :=
  ⟨claim_C5.1 1 "abc" initState (Or.inl (by decide)),
    claim_C5.2.1 tokA initState,
    claim_C5.2.2 2 tokA initState
      (by intro l hl; simp [initState, lookupA] at hl)⟩

/-! ## Claim C10 -/

/-- C10: an `/unmonitor` from a user not subscribed to the token returns the
"not monitoring" reply and leaves the entire state — subscription sets, alert
sets, metrics snapshots and the task dict — exactly as before, with no
provider call. -/
theorem claim_C10 (u : Nat) (tk : String) (s : BotState)
    (h : ∀ l, lookupA u s.user_subscriptions = some l → tk ∉ l) :
    unmonitor_command u tk s = ⟨s, Reply.notMonitoring tk, []⟩ :=
  unmonitor_not_subscribed h

theorem claim_C10_witness :
    unmonitor_command 1 tokA initState
      = ⟨initState, Reply.notMonitoring tokA, []⟩ :=
  claim_C10 1 tokA initState
    (by intro l hl; simp [initState, lookupA] at hl)

/-! ## Claim C3 -/

/-- C3: over any alert state, any duplicate-free threshold sequence and any
current value, the threshold loop fires exactly the thresholds reached by the
value whose key is not yet recorded, and records each fired key; with the
configured thresholds [50, 75, 90, 95, 99], a first check at 96 fires exactly
[50, 75, 90, 95] (no intermediate threshold skipped) and an immediately
repeated check at 96 fires nothing. -/
theorem claim_C3 :
    (∀ (ts : List ℚ) (v : ℚ) (st : List AlertKey), ts.Nodup →
       (fireThresholds ts v st).1
           = ts.filter (fun t => decide (t ≤ v ∧ mkAlertKey t ∉ st)) ∧
       (fireThresholds ts v st).2
           = st ++ (ts.filter
               (fun t => decide (t ≤ v ∧ mkAlertKey t ∉ st))).map mkAlertKey) ∧
    (fireThresholds BONDING_CURVE_ALERT_THRESHOLDS 96 []).1 = [50, 75, 90, 95] ∧
    (fireThresholds BONDING_CURVE_ALERT_THRESHOLDS 96
        (fireThresholds BONDING_CURVE_ALERT_THRESHOLDS 96 []).2).1 = [] :=
  ⟨fun ts v st h => fireThresholds_spec v ts st h, by decide, by decide⟩

theorem claim_C3_witness :
    (fireThresholds BONDING_CURVE_ALERT_THRESHOLDS 96 []).1
        = BONDING_CURVE_ALERT_THRESHOLDS.filter
            (fun t => decide (t ≤ 96 ∧ mkAlertKey t ∉ ([] : List AlertKey))) :=
  (claim_C3.1 BONDING_CURVE_ALERT_THRESHOLDS 96 [] (by decide)).1

/-! ## Claim C6 -/

/-- C6, counterexample to the claim as stated: user 1 is the last subscriber
of the token; after `/unmonitor` the poller task is cancelled and removed,
but the token's metrics snapshot in `self.token_data` is still present —
nothing in `unmonitor_command` (src/main.py lines 274-308) ever deletes
`self.token_data[token]`, so the claimed discarding of TokenMetrics does not
happen. -/
theorem claim_C6_cex :
    lookupA tokA (unmonitor_command 1 tokA exState).state.token_data
      = some ⟨1, 90⟩ ∧
    (unmonitor_command 1 tokA exState).state.monitoring_tasks = [] := by decide

/-- C6 (amended): when the last remaining subscriber unsubscribes, the
token's poller entry is cancelled and removed and the pair's AlertState is
discarded — but the token's TokenMetrics snapshot is retained unchanged; a
subsequent re-subscribe by the same user starts with an empty alert history,
and on an empty history every reached threshold fires again. -/
theorem claim_C6 (u : Nat) (tk : String) (s : BotState) (l : List String)
    (hsub : lookupA u s.user_subscriptions = some l) (htk : tk ∈ l)
    (hlast : anyMem tk (setk u (l.erase tk) s.user_subscriptions) = false) :
    lookupA tk (unmonitor_command u tk s).state.monitoring_tasks = none ∧
    lookupA tk ((lookupA u (unmonitor_command u tk s).state.user_alerts).getD [])
      = none ∧
    (unmonitor_command u tk s).state.token_data = s.token_data ∧
    lookupA tk ((lookupA u (monitorUpdate u tk
        (unmonitor_command u tk s).state).user_alerts).getD []) = some [] ∧
    (∀ v : ℚ, (fireThresholds bonding_thresholds v []).1
        = bonding_thresholds.filter (fun x => decide (x ≤ v))) := by
  refine ⟨?_, unmonitor_alerts hsub htk, unmonitor_token_data u tk s, ?_, ?_⟩
  · rw [unmonitor_tasks hsub htk, if_neg (by simp [hlast])]
    exact lookupA_delk_self _ _
  · exact monitorUpdate_alerts_fresh u tk _ (unmonitor_alerts hsub htk)
  · intro v
    rw [(fireThresholds_spec v bonding_thresholds [] (by decide)).1]
    apply List.filter_congr
    intro a _
    simp

theorem claim_C6_witness :
    lookupA tokA (unmonitor_command 1 tokA exState).state.monitoring_tasks
      = none ∧
    lookupA tokA
        ((lookupA 1 (unmonitor_command 1 tokA exState).state.user_alerts).getD [])
      = none ∧
    (unmonitor_command 1 tokA exState).state.token_data = exState.token_data ∧
    lookupA tokA ((lookupA 1 (monitorUpdate 1 tokA
        (unmonitor_command 1 tokA exState).state).user_alerts).getD [])
      = some [] ∧
    (∀ v : ℚ, (fireThresholds bonding_thresholds v []).1
        = bonding_thresholds.filter (fun x => decide (x ≤ v))) :=
  claim_C6 1 tokA exState [tokA] (by decide) (by decide) (by decide)

/-! ## Claim C7 -/

/-- Number of entries a key owns in the task dict. -/
def countKey (k : String) (l : List (String × TaskStatus)) : Nat :=
  (l.filter (fun p => decide (p.1 = k))).length

theorem countKey_zero_lookup {k : String} :
    ∀ {l : List (String × TaskStatus)}, countKey k l = 0 → lookupA k l = none := by
  intro l
  induction l with
  | nil => intro _; rfl
  | cons p rest ih =>
    obtain ⟨a, b⟩ := p
    intro h
    by_cases ha : a = k
    · simp [countKey, List.filter_cons, ha] at h
    · simp only [countKey, List.filter_cons, decide_eq_true_eq, ha,
        if_false] at h
      simp only [lookupA, if_neg ha]
      exact ih h

theorem countKey_setk_fresh {k : String} {v : TaskStatus} :
    ∀ {l : List (String × TaskStatus)}, countKey k l = 0 →
      countKey k (setk k v l) = 1 := by
  intro l
  induction l with
  | nil => intro _; simp [countKey, setk, List.filter_cons]
  | cons p rest ih =>
    obtain ⟨a, b⟩ := p
    intro h
    by_cases ha : a = k
    · simp [countKey, List.filter_cons, ha] at h
    · simp only [countKey, List.filter_cons, decide_eq_true_eq, ha,
        if_false] at h
      simp only [setk, if_neg ha, countKey, List.filter_cons,
        decide_eq_true_eq, ha, if_false]
      exact ih h

/-- C7: subscribing is idempotent — the second identical `/monitor` changes
nothing — and a fresh token gets exactly one running poller entry; a token
that already has a task entry (in particular one that already has a
subscriber, under the registry invariant) never gets a second poller; the
user's subscription set holds exactly one entry for the token. -/
theorem claim_C7 :
    (∀ u tk s, monitorUpdate u tk (monitorUpdate u tk s) = monitorUpdate u tk s) ∧
    (∀ u tk s, lookupA tk s.monitoring_tasks = none →
       lookupA tk (monitorUpdate u tk s).monitoring_tasks
         = some TaskStatus.running) ∧
    (∀ u tk s, lookupA tk s.monitoring_tasks ≠ none →
       (monitorUpdate u tk s).monitoring_tasks = s.monitoring_tasks) ∧
    (∀ u tk s, countKey tk s.monitoring_tasks = 0 →
       countKey tk (monitorUpdate u tk (monitorUpdate u tk s)).monitoring_tasks
         = 1) ∧
    (∀ u tk s, tk ∈ (lookupA u (monitorUpdate u tk s).user_subscriptions).getD [] ∧
       (((lookupA u s.user_subscriptions).getD []).count tk ≤ 1 →
         ((lookupA u (monitorUpdate u tk s).user_subscriptions).getD []).count tk
           = 1)) ∧
    (∀ u tk s, hasSubscriber s tk = true → IffInv s →
       (monitorUpdate u tk s).monitoring_tasks = s.monitoring_tasks) := by
  have htaskfresh : ∀ (u : Nat) (tk : String) (s : BotState),
      lookupA tk s.monitoring_tasks = none →
        lookupA tk (monitorUpdate u tk s).monitoring_tasks
          = some TaskStatus.running := by
    intro u tk s h
    rw [monitorUpdate_tasks, if_pos h, lookupA_setk_self]
  have htaskkeep : ∀ (u : Nat) (tk : String) (s : BotState),
      lookupA tk s.monitoring_tasks ≠ none →
        (monitorUpdate u tk s).monitoring_tasks = s.monitoring_tasks := by
    intro u tk s h
    rw [monitorUpdate_tasks, if_neg h]
  refine ⟨monitorUpdate_idem, htaskfresh, htaskkeep, ?_, ?_, ?_⟩
  · intro u tk s h
    rw [monitorUpdate_idem]
    rw [monitorUpdate_tasks, if_pos (countKey_zero_lookup h)]
    exact countKey_setk_fresh h
  · intro u tk s
    rw [monitorUpdate_lookup_subs]
    simp only [Option.getD_some]
    constructor
    · exact mem_addElem_self _ _
    · intro hc
      by_cases hm : tk ∈ (lookupA u s.user_subscriptions).getD []
      · rw [addElem_of_mem hm]
        exact le_antisymm hc (List.count_pos_iff.mpr hm)
      · rw [addElem_of_not_mem hm, List.count_append]
        rw [List.count_eq_zero.mpr hm]
        simp
  · intro u tk s hsub hI
    apply htaskkeep
    have := hI tk
    rw [hsub] at this
    unfold pollerActive at this
    intro hnone
    rw [hnone] at this
    simp at this

theorem IffInv_exState : IffInv exState := by
  intro t
  unfold pollerActive hasSubscriber anyMem exState
  by_cases h : tokA = t
  · subst h
    decide
  · have h' : ¬t = tokA := fun hh => h hh.symm
    simp [lookupA, h, h']

theorem claim_C7_witness :
    monitorUpdate 1 tokA (monitorUpdate 1 tokA initState)
      = monitorUpdate 1 tokA initState ∧
    lookupA tokA (monitorUpdate 1 tokA initState).monitoring_tasks
      = some TaskStatus.running ∧
    countKey tokA
        (monitorUpdate 1 tokA (monitorUpdate 1 tokA initState)).monitoring_tasks
      = 1 ∧
    ((lookupA 1 (monitorUpdate 1 tokA initState).user_subscriptions).getD
        []).count tokA = 1 ∧
    (monitorUpdate 2 tokA exState).monitoring_tasks
      = exState.monitoring_tasks :=
  ⟨claim_C7.1 1 tokA initState,
    claim_C7.2.1 1 tokA initState (by decide),
    claim_C7.2.2.2.1 1 tokA initState (by decide),
    (claim_C7.2.2.2.2.1 1 tokA initState).2 (by decide),
    claim_C7.2.2.2.2.2 2 tokA exState (by decide) IffInv_exState⟩

/-! ## Alert-dispatch lemmas (claims C8 and C9) -/

theorem checkAlertsUsers_indep (th : List ℚ) (tk : String) (pr : ℚ)
    (k1 k2 : Nat → ℚ → Bool) :
    ∀ (users : List (Nat × List String))
      (alerts : List (Nat × List (String × List AlertKey))),
      (checkAlertsUsers th tk pr k1 users alerts).1
          = (checkAlertsUsers th tk pr k2 users alerts).1 ∧
      (checkAlertsUsers th tk pr k1 users alerts).2.1
          = (checkAlertsUsers th tk pr k2 users alerts).2.1 := by
  intro users
  induction users with
  | nil => intro alerts; exact ⟨rfl, rfl⟩
  | cons e rest ih =>
    obtain ⟨uid, subs⟩ := e
    intro alerts
    by_cases hm : tk ∈ subs
    · simp only [checkAlertsUsers, if_pos hm]
      refine ⟨(ih _).1, ?_⟩
      rw [(ih _).2]
    · simp only [checkAlertsUsers, if_neg hm]
      exact ih alerts

theorem checkAlertsUsers_failures (th : List ℚ) (tk : String) (pr : ℚ)
    (k : Nat → ℚ → Bool) :
    ∀ (users : List (Nat × List String))
      (alerts : List (Nat × List (String × List AlertKey))),
      (checkAlertsUsers th tk pr k users alerts).2.2
        = (checkAlertsUsers th tk pr k users alerts).2.1.filter
            (fun q => !(k q.1 q.2)) := by
  intro users
  induction users with
  | nil => intro alerts; rfl
  | cons e rest ih =>
    obtain ⟨uid, subs⟩ := e
    intro alerts
    by_cases hm : tk ∈ subs
    · simp only [checkAlertsUsers, if_pos hm]
      rw [List.filter_append, ih]
    · simp only [checkAlertsUsers, if_neg hm]
      exact ih alerts

theorem checkAlertsUsers_attempts_mem (th : List ℚ) (tk : String) (pr : ℚ)
    (k : Nat → ℚ → Bool) :
    ∀ (users : List (Nat × List String))
      (alerts : List (Nat × List (String × List AlertKey)))
      (q : Nat × ℚ), q ∈ (checkAlertsUsers th tk pr k users alerts).2.1 →
      (∃ e ∈ users, q.1 = e.1 ∧ tk ∈ e.2) ∧ q.2 ∈ th ∧ q.2 ≤ pr := by
  intro users
  induction users with
  | nil => intro alerts q hq; simp [checkAlertsUsers] at hq
  | cons e rest ih =>
    obtain ⟨uid, subs⟩ := e
    intro alerts q hq
    by_cases hm : tk ∈ subs
    · simp only [checkAlertsUsers, if_pos hm, List.mem_append] at hq
      rcases hq with hq | hq
      · obtain ⟨t, ht, hq⟩ := List.mem_map.mp hq
        obtain ⟨ht1, ht2⟩ := fireThresholds_mem ht
        subst hq
        exact ⟨⟨(uid, subs), List.mem_cons_self _ _, rfl, hm⟩, ht1, ht2⟩
      · obtain ⟨⟨e, he, h1, h2⟩, h3, h4⟩ := ih _ q hq
        exact ⟨⟨e, List.mem_cons_of_mem _ he, h1, h2⟩, h3, h4⟩
    · simp only [checkAlertsUsers, if_neg hm] at hq
      obtain ⟨⟨e, he, h1, h2⟩, h3, h4⟩ := ih alerts q hq
      exact ⟨⟨e, List.mem_cons_of_mem _ he, h1, h2⟩, h3, h4⟩

theorem pollerCycle_indep (tk : String) (o : FetchOutcome)
    (k1 k2 : Nat → ℚ → Bool) (s : BotState) :
    (pollerCycle tk o k1 s).state = (pollerCycle tk o k2 s).state ∧
    (pollerCycle tk o k1 s).res = (pollerCycle tk o k2 s).res ∧
    (pollerCycle tk o k1 s).attempts = (pollerCycle tk o k2 s).attempts := by
  cases o with
  | error => exact ⟨rfl, rfl, rfl⟩
  | ok td bd =>
    by_cases hb : td = none ∧ bd = none
    · simp [pollerCycle, hb]
    · by_cases hp : 80 ≤ progressOfFetch bd
      · obtain ⟨h1, h2⟩ := checkAlertsUsers_indep bonding_thresholds tk
          (progressOfFetch bd) k1 k2 s.user_subscriptions s.user_alerts
        refine ⟨?_, ?_, ?_⟩ <;>
          simp only [pollerCycle, if_neg hb, if_pos hp, check_bonding_alerts] <;>
          first
          | rw [h1]
          | rw [h2]
      · simp [pollerCycle, hb, hp]

/-! ## Claim C8 -/

/-- C8: delivery failures are isolated per recipient — the resulting state
and the list of attempted deliveries do not depend on which sends succeed, so
one user's failure never suppresses another user's delivery for the same
crossing; the logged failures are exactly the failing attempts; no delivery
outcome changes the poll cycle's result; and because every fired key is
recorded before the send is attempted, re-checking the produced alert state
at the same value fires nothing — a failed delivery is never retried. -/
theorem claim_C8 :
    (∀ tk p pr k k' s,
       (check_bonding_alerts tk p pr k s).state
           = (check_bonding_alerts tk p pr k' s).state ∧
       (check_bonding_alerts tk p pr k s).attempts
           = (check_bonding_alerts tk p pr k' s).attempts) ∧
    (∀ tk p pr k s,
       (check_bonding_alerts tk p pr k s).failures
         = (check_bonding_alerts tk p pr k s).attempts.filter
             (fun q => !(k q.1 q.2))) ∧
    (∀ tk o k k' s, (pollerCycle tk o k s).res = (pollerCycle tk o k' s).res) ∧
    (∀ (v : ℚ) (st : List AlertKey),
       (fireThresholds bonding_thresholds v
         (fireThresholds bonding_thresholds v st).2).1 = []) := by
  refine ⟨?_, ?_, ?_, ?_⟩
  · intro tk p pr k k' s
    simp only [check_bonding_alerts]
    obtain ⟨h1, h2⟩ := checkAlertsUsers_indep bonding_thresholds tk pr k k'
      s.user_subscriptions s.user_alerts
    exact ⟨by rw [h1], by rw [h2]⟩
  · intro tk p pr k s
    simp only [check_bonding_alerts]
    exact checkAlertsUsers_failures bonding_thresholds tk pr k
      s.user_subscriptions s.user_alerts
  · intro tk o k k' s
    exact (pollerCycle_indep tk o k k' s).2.1
  · intro v st
    exact fireThresholds_twice bonding_thresholds v st (by decide)

/-! ## Claim C9 -/

/-- C9: every alert the polling loop ever attempts to send is for a threshold
of the hardcoded bonding-phase list [85, 90, 95, 98, 99, 99.5] — never for
the configured-only thresholds 50 or 75 — and only in a cycle whose computed
bonding progress is at least 80 (and at least the fired threshold); the
configured-threshold checker `check_alerts` has no call site in the loop. -/
theorem claim_C9 (tk : String) (o : FetchOutcome) (k : Nat → ℚ → Bool)
    (s : BotState) (q : Nat × ℚ)
    (hq : q ∈ (pollerCycle tk o k s).attempts) :
    q.2 ∈ bonding_thresholds ∧
    (∃ td bd, o = FetchOutcome.ok td bd ∧ 80 ≤ progressOfFetch bd ∧
      q.2 ≤ progressOfFetch bd) ∧
    q.2 ≠ 50 ∧ q.2 ≠ 75 := by
  have hmain : q.2 ∈ bonding_thresholds ∧
      ∃ td bd, o = FetchOutcome.ok td bd ∧ 80 ≤ progressOfFetch bd ∧
        q.2 ≤ progressOfFetch bd := by
    cases o with
    | error => simp [pollerCycle] at hq
    | ok td bd =>
      by_cases hb : td = none ∧ bd = none
      · simp [pollerCycle, hb] at hq
      · by_cases hp : 80 ≤ progressOfFetch bd
        · simp only [pollerCycle, if_neg hb, if_pos hp,
            check_bonding_alerts] at hq
          obtain ⟨_, h3, h4⟩ := checkAlertsUsers_attempts_mem
            bonding_thresholds tk (progressOfFetch bd) k
            s.user_subscriptions s.user_alerts q hq
          exact ⟨h3, td, bd, rfl, hp, h4⟩
        · simp [pollerCycle, hb, hp] at hq
  refine ⟨hmain.1, hmain.2, ?_, ?_⟩
  · have h := hmain.1
    intro h50
    rw [h50] at h
    revert h
    decide
  · have h := hmain.1
    intro h75
    rw [h75] at h
    revert h
    decide

theorem claim_C9_witness :
    ((1 : Nat), (90 : ℚ)).2 ∈ bonding_thresholds ∧
    (∃ td bd, FetchOutcome.ok (some 1) (some 100) = FetchOutcome.ok td bd ∧
      80 ≤ progressOfFetch bd ∧
      ((1 : Nat), (90 : ℚ)).2 ≤ progressOfFetch bd) ∧
    ((1 : Nat), (90 : ℚ)).2 ≠ 50 ∧ ((1 : Nat), (90 : ℚ)).2 ≠ 75 :=
  claim_C9 tokA (FetchOutcome.ok (some 1) (some 100)) (fun _ _ => true)
    exState (1, 90) (by decide)

end PrebondBot
